import Mathlib

set_option maxRecDepth 16384

/-!
Verification of the whitehouse-actions-tracker repository: a shallow
embedding, in Lean, of the caching reverse proxy (src/server/server.js and
the draft in src/unnamed/part_002), the client-side feed extraction and
retry logic (src/src/js/main.js), and the rate limiter configured on the
proxy route.  External collaborators (the Redis store, the
rate-limiter-flexible counter, the DOM parser, the HTTP client) are
modelled from the specification's description of them; everything else is
translated from the JavaScript source, function by function.
-/

/-! ## XML documents

The client parses the feed with DOMParser and walks it with
getElementsByTagName / textContent.  An XML document is modelled as a tree
of element and text nodes.  A mutual inductive (node / node list) is used
so that every function below is structural and evaluates inside the
kernel. -/

mutual
inductive XmlNode where
  | text (s : String)
  | elem (tag : String) (children : XmlNodes)
inductive XmlNodes where
  | nil
  | cons (head : XmlNode) (tail : XmlNodes)
end

def XmlNodes.ofList : List XmlNode → XmlNodes
  | [] => .nil
  | x :: xs => .cons x (XmlNodes.ofList xs)

def XmlNodes.toList : XmlNodes → List XmlNode
  | .nil => []
  | .cons x xs => x :: XmlNodes.toList xs

/-- Shorthand for building an element node from a plain list of children. -/
def el (tag : String) (cs : List XmlNode) : XmlNode := .elem tag (XmlNodes.ofList cs)

/-- Shorthand for a text node. -/
def txt (s : String) : XmlNode := .text s

/-! DOM textContent: the concatenation of all descendant text, in document
order. -/
mutual
def textContent : XmlNode → String
  | .text s => s
  | .elem _ cs => textContentList cs
def textContentList : XmlNodes → String
  | .nil => ""
  | .cons c cs => textContent c ++ textContentList cs
end

/-! DOM getElementsByTagName seen from a node: every descendant element
with the given tag, in document (preorder) order, the node itself
excluded.  This is what item.getElementsByTagName and
xmlDoc.getElementsByTagName return in src/src/js/main.js. -/
mutual
def collectByTag (tag : String) : XmlNode → List XmlNode
  | .text _ => []
  | .elem _ cs => collectFromList tag cs
def collectFromList (tag : String) : XmlNodes → List XmlNode
  | .nil => []
  | .cons c cs =>
    (match c with
     | .elem t _ => if t = tag then [c] else []
     | .text _ => []) ++ collectByTag tag c ++ collectFromList tag cs
end

/-- Direct element children with the given tag (the DOM notion of a child
element, as opposed to a descendant).  Used only to state claims that
speak of a "category child" literally. -/
def childElemsByTag (tag : String) (n : XmlNode) : List XmlNode :=
  match n with
  | .text _ => []
  | .elem _ cs => cs.toList.filter fun c =>
      match c with
      | .elem t _ => t = tag
      | .text _ => false

/-! ## Client-side extraction (src/src/js/main.js) -/

/-- ActionItem of the spec's data model: the record built for each kept
feed item by extractActionsFromXML. -/
structure ActionItem where
  title : String
  link : String
  pubDate : String
  description : String
deriving DecidableEq

/-- One escaped character of sanitizeHTML's output.  Setting
`div.textContent` and reading back `div.innerHTML` serialises the string
as an HTML text node, which escapes the ampersand, the angle brackets and
the no-break space; every other character is returned as it is. -/
def escapeChar (c : Char) : String :=
  if c = '&' then "&amp;"
  else if c = '<' then "&lt;"
  else if c = '>' then "&gt;"
  else if c = Char.ofNat 160 then "&nbsp;"
  else String.mk [c]

def concatMapChars (f : Char → String) : List Char → String
  | [] => ""
  | c :: cs => f c ++ concatMapChars f cs

/-- sanitizeHTML from src/src/js/main.js:187-191: the browser's text-node
serialisation of the string, character by character. -/
def sanitizeHTML (s : String) : String := concatMapChars escapeChar s.data

/-- Field extraction for one kept item, from the map callback in
src/src/js/main.js:124-129.  `getElementsByTagName(tag)[0].textContent`
reads the first matching descendant and throws a TypeError when there is
none; the throw is modelled as `none`. -/
def itemFields (item : XmlNode) : Option ActionItem :=
  match (collectByTag "title" item).head?, (collectByTag "link" item).head?,
        (collectByTag "pubDate" item).head?, (collectByTag "description" item).head? with
  | some t, some l, some p, some d =>
    some { title := sanitizeHTML (textContent t), link := textContent l,
           pubDate := textContent p, description := sanitizeHTML (textContent d) }
  | _, _, _, _ => none

/-- The `.map` over the kept items: a TypeError thrown for any element
aborts the whole extraction, so the result is `none` as soon as one item
fails. -/
def extractFields : List XmlNode → Option (List ActionItem)
  | [] => some []
  | item :: rest =>
    match itemFields item, extractFields rest with
    | some a, some tail => some (a :: tail)
    | _, _ => none

/-- extractActionsFromXML from src/src/js/main.js:116-130: filter the
item elements on having some category descendant whose textContent is
exactly "Presidential Actions", then map each kept item to its fields. -/
def extractActionsFromXML (xmlDoc : XmlNode) : Option (List ActionItem) :=
  let items := collectByTag "item" xmlDoc
  let kept := items.filter fun item =>
    (collectByTag "category" item).any fun category =>
      textContent category == "Presidential Actions"
  extractFields kept

/-- createActionCard from src/src/js/main.js:164-180: the innerHTML
template of one card.  `fmtDate` stands for the external
`new Date(...).toLocaleDateString` formatting; the title, description and
link fields are interpolated into the markup exactly as stored. -/
def createActionCard (fmtDate : String → String) (a : ActionItem) : String :=
  "\n    <p class=\"action-date\">" ++ fmtDate a.pubDate ++
  "</p>\n    <h2 class=\"action-title\">" ++ a.title ++
  "</h2>\n    <div class=\"action-summary\">" ++ a.description ++
  "</div>\n    <a href=\"" ++ a.link ++
  "\" class=\"full-document-link\" target=\"_blank\" rel=\"noopener noreferrer\">\n      Read Full Document\n    </a>\n  "

/-! ## Claim-side extraction predicates

These follow the words of the spec and of the claims (a second definition
beside the one from the source, for comparison). -/

/-- Keeps an item on a category descendant with the exact text, as the
source does. -/
def specKeepDesc (item : XmlNode) : Bool :=
  (collectByTag "category" item).any fun category =>
    textContent category == "Presidential Actions"

/-- Keeps an item on a category child (direct child element) with the
exact text: the claims' literal wording. -/
def specKeepChild (item : XmlNode) : Bool :=
  (childElemsByTag "category" item).any fun category =>
    textContent category == "Presidential Actions"

/-- Claim-side field use: the first occurrence of each of title, link,
pubDate, description. -/
def specItemAction (item : XmlNode) : Option ActionItem :=
  match collectByTag "title" item, collectByTag "link" item,
        collectByTag "pubDate" item, collectByTag "description" item with
  | t :: _, l :: _, p :: _, d :: _ =>
    some { title := sanitizeHTML (textContent t), link := textContent l,
           pubDate := textContent p, description := sanitizeHTML (textContent d) }
  | _, _, _, _ => none

/-- Claim-side extraction, written as one pass over the item list: keep
the items the predicate accepts, in the original order, and use the first
occurrence of each field; fail when a kept item misses a field. -/
def specGo (keep : XmlNode → Bool) : List XmlNode → Option (List ActionItem)
  | [] => some []
  | item :: rest =>
    if keep item then
      match specItemAction item, specGo keep rest with
      | some a, some tail => some (a :: tail)
      | _, _ => none
    else specGo keep rest

def specExtract (keep : XmlNode → Bool) (doc : XmlNode) : Option (List ActionItem) :=
  specGo keep (collectByTag "item" doc)

/-- Lacks one of the four fields as a direct child: the literal wording of
the implicit claim about malformed kept items. -/
def lacksFieldChild (item : XmlNode) : Bool :=
  (childElemsByTag "title" item).isEmpty || (childElemsByTag "link" item).isEmpty ||
  (childElemsByTag "pubDate" item).isEmpty || (childElemsByTag "description" item).isEmpty

/-- Lacks one of the four fields as a descendant: what the source's
`getElementsByTagName(tag)[0]` access actually requires. -/
def lacksFieldDesc (item : XmlNode) : Bool :=
  (collectByTag "title" item).isEmpty || (collectByTag "link" item).isEmpty ||
  (collectByTag "pubDate" item).isEmpty || (collectByTag "description" item).isEmpty

/-- Some item the claim counts as kept lacks one of the four fields as a
child: the premise of the implicit partiality claim. -/
def claimMalformedKept (doc : XmlNode) : Bool :=
  (collectByTag "item" doc).any fun item => specKeepDesc item && lacksFieldChild item

/-! ## Client-side fetch retry (src/src/js/main.js:62-97) -/

/-- Outcome of one fetch attempt against the proxy: a 2xx response with a
body, a non-2xx status (response.ok false, thrown as an HTTP error), or a
network exception. -/
inductive AttemptOutcome where
  | ok (body : String)
  | httpError (status : Nat)
  | networkFailure
deriving DecidableEq

def attemptFails : AttemptOutcome → Bool
  | .ok _ => false
  | _ => true

def MAX_RETRIES : Nat := 3

/-- fetchWithRetry from src/src/js/main.js:82-97.  `oracle k` is what the
k-th fetch attempt of this cycle returns (the network is external).
The JS recursion is bounded by the `retryCount < MAX_RETRIES` check on the
module-level counter; here the recursion is structural on
`gas = MAX_RETRIES - retryCount`, which that check keeps positive, and
`gas = 0` is exactly the exhausted case that rethrows.  The result is
(body if some attempt succeeded, number of attempts made, total delay in
milliseconds — one fixed 2000 ms wait before each retry — and the final
value of the retryCount counter). -/
def fetchWithRetry (oracle : Nat → AttemptOutcome) :
    Nat → Nat → Nat → Option String × Nat × Nat × Nat
  | retryCount, attempt, 0 =>
    match oracle attempt with
    | .ok body => (some body, 1, 0, retryCount)
    | _ => (none, 1, 0, retryCount)
  | retryCount, attempt, g + 1 =>
    match oracle attempt with
    | .ok body => (some body, 1, 0, retryCount)
    | _ =>
      match fetchWithRetry oracle (retryCount + 1) (attempt + 1) g with
      | (res, n, d, rc) => (res, n + 1, d + 2000, rc)

/-- The client state touched by one load cycle: the module-level
retryCount, the localStorage pair (whActionsCache, whActionsCacheTime),
and whether the error alert with its Retry button is showing. -/
structure ClientState where
  retryCount : Nat
  whActionsCache : Option (List ActionItem × Nat)
  errorShown : Bool
deriving DecidableEq

/-- fetchPresidentialActions from src/src/js/main.js:62-76.  `parseDoc`
stands for the external DOMParser.  On a successful fetch the body is
parsed and extracted; on extraction success cacheData overwrites both
localStorage keys with the data and the current time and the retry counter
is reset to 0; any thrown error reaches handleError, which shows the error
alert with its Retry button and leaves the counter and the cache as the
cycle left them. -/
def fetchPresidentialActions (oracle : Nat → AttemptOutcome)
    (parseDoc : String → XmlNode) (now : Nat) (s : ClientState) : ClientState :=
  match fetchWithRetry oracle s.retryCount 0 (MAX_RETRIES - s.retryCount) with
  | (some body, _, _, rc) =>
    match extractActionsFromXML (parseDoc body) with
    | some data =>
      { retryCount := 0, whActionsCache := some (data, now), errorShown := s.errorShown }
    | none =>
      { retryCount := rc, whActionsCache := s.whActionsCache, errorShown := true }
  | (none, _, _, rc) =>
    { retryCount := rc, whActionsCache := s.whActionsCache, errorShown := true }

/-! ## URL decoding (the JS decodeURIComponent)

decodeURIComponent reads every %XX pair as a byte, requires the byte
sequences so read to be well-formed, shortest-form UTF-8 encoding a valid
scalar value, throws a URIError otherwise, and leaves every other
character as it is.  The throw is modelled as `none`.  The recursion is
structural on a fuel bounded by the string length (each step consumes at
least one character). -/

def hexDigitVal (c : Char) : Option Nat :=
  let n := c.toNat
  if 48 ≤ n ∧ n ≤ 57 then some (n - 48)
  else if 65 ≤ n ∧ n ≤ 70 then some (n - 55)
  else if 97 ≤ n ∧ n ≤ 102 then some (n - 87)
  else none

/-- Reads one %XX escape at the head of the list. -/
def pctByte : List Char → Option (Nat × List Char)
  | '%' :: h :: l :: rest =>
    match hexDigitVal h, hexDigitVal l with
    | some hv, some lv => some (16 * hv + lv, rest)
    | _, _ => none
  | _ => none

def isContinuationByte (b : Nat) : Bool := 128 ≤ b && b < 192

def charIfValid (cp : Nat) : Option Char :=
  if Nat.isValidChar cp then some (Char.ofNat cp) else none

def decodeBytesAux : Nat → List Char → Option (List Char)
  | _, [] => some []
  | 0, _ :: _ => none
  | fuel + 1, c :: rest =>
    if c = '%' then
      match pctByte (c :: rest) with
      | none => none
      | some (b, r1) =>
        if b < 128 then
          (decodeBytesAux fuel r1).map fun tail => Char.ofNat b :: tail
        else if 192 ≤ b && b < 224 then
          match pctByte r1 with
          | some (b2, r2) =>
            if isContinuationByte b2 then
              let cp := (b - 192) * 64 + (b2 - 128)
              if 128 ≤ cp then
                match charIfValid cp with
                | some ch => (decodeBytesAux fuel r2).map fun tail => ch :: tail
                | none => none
              else none
            else none
          | none => none
        else if 224 ≤ b && b < 240 then
          match pctByte r1 with
          | some (b2, r2) =>
            match pctByte r2 with
            | some (b3, r3) =>
              if isContinuationByte b2 && isContinuationByte b3 then
                let cp := (b - 224) * 4096 + (b2 - 128) * 64 + (b3 - 128)
                if 2048 ≤ cp then
                  match charIfValid cp with
                  | some ch => (decodeBytesAux fuel r3).map fun tail => ch :: tail
                  | none => none
                else none
              else none
            | none => none
          | none => none
        else if 240 ≤ b && b < 248 then
          match pctByte r1 with
          | some (b2, r2) =>
            match pctByte r2 with
            | some (b3, r3) =>
              match pctByte r3 with
              | some (b4, r4) =>
                if isContinuationByte b2 && isContinuationByte b3 && isContinuationByte b4 then
                  let cp := (b - 240) * 262144 + (b2 - 128) * 4096 + (b3 - 128) * 64 + (b4 - 128)
                  if 65536 ≤ cp then
                    match charIfValid cp with
                    | some ch => (decodeBytesAux fuel r4).map fun tail => ch :: tail
                    | none => none
                  else none
                else none
              | none => none
            | none => none
          | none => none
        else none
    else
      (decodeBytesAux fuel rest).map fun tail => c :: tail

def decodeURIComponent (s : String) : Option String :=
  (decodeBytesAux s.data.length s.data).map fun l => String.mk l

/-! ## URL validation (src/server/server.js:137-140) -/

def asciiLowerChar (c : Char) : Char :=
  if 'A' ≤ c ∧ c ≤ 'Z' then Char.ofNat (c.toNat + 32) else c

def asciiLower (s : String) : String := String.mk (s.data.map asciiLowerChar)

def charsStartWith : List Char → List Char → Bool
  | _, [] => true
  | [], _ :: _ => false
  | c :: cs, q :: qs => c = q && charsStartWith cs qs

/-- Anchored prefix test on strings, written structurally so that it
evaluates inside the kernel: strStartsWith s pat is true when pat is a
prefix of s. -/
def strStartsWith (s pat : String) : Bool := charsStartWith s.data pat.data

/-- isValidWhiteHouseUrl from src/server/server.js:137-140: the regex
test of the decoded URL against
https www.whitehouse.gov slash (feed|briefing-room|wp-json), anchored at
the start only and carrying the i flag, so the whole match is
ASCII-case-insensitive. -/
def isValidWhiteHouseUrl (url : String) : Bool :=
  strStartsWith (asciiLower url) "https://www.whitehouse.gov/feed" ||
  strStartsWith (asciiLower url) "https://www.whitehouse.gov/briefing-room" ||
  strStartsWith (asciiLower url) "https://www.whitehouse.gov/wp-json"

/-- The three allowed path openings named by the spec. -/
def allowListPaths : List String := ["feed", "briefing-room", "wp-json"]

/-- Claim-side allow-list, read literally: an https URL on
www.whitehouse.gov whose path starts with one of the fixed prefixes,
written exactly as given (case-sensitive). -/
def specAllowedCS (url : String) : Bool :=
  allowListPaths.any fun p => strStartsWith url ("https://www.whitehouse.gov/" ++ p)

/-- Claim-side allow-list amended to the source's case-insensitive
matching. -/
def specAllowedCI (url : String) : Bool :=
  allowListPaths.any fun p =>
    strStartsWith (asciiLower url) ("https://www.whitehouse.gov/" ++ p)

/-! ## The proxy cache (src/server/server.js:82-112)

The Redis store is an external collaborator; it is modelled from the
spec's CacheEntry description (section 3): the value stored under the
canonical URL carries the body, the content type and the stored-at time,
and the PX expiry set at write time makes the entry absent from reads at
or after stored-at + TTL. -/

def CACHE_TTL : Nat := 300000

structure CacheEntry where
  data : String
  contentType : String
  storedAt : Nat
deriving DecidableEq

abbrev CacheStore : Type := List (String × CacheEntry)

def lookupStore (c : CacheStore) (k : String) : Option CacheEntry :=
  List.lookup k c

/-- redisClient.get with PX expiry: the entry is returned only while
now < storedAt + CACHE_TTL; past that moment the key has expired and the
read behaves as a miss. -/
def redisGet (c : CacheStore) (now : Nat) (k : String) : Option CacheEntry :=
  match lookupStore c k with
  | some e => if now < e.storedAt + CACHE_TTL then some e else none
  | none => none

/-- redisClient.set with PX CACHE_TTL: the new binding shadows any older
one for the same key (Redis SET overwrites). -/
def redisSet (c : CacheStore) (k : String) (e : CacheEntry) : CacheStore :=
  (k, e) :: c

/-- What one outbound GET to the upstream host would return right now:
a 2xx response with body and Content-Type, a non-2xx status
(response.ok false), or a transport failure. -/
inductive FetchResult where
  | ok (body contentType : String)
  | httpError (status : Nat)
  | networkFailure
deriving DecidableEq

/-- What the handler does with the inbound request: send a response, or
let an exception escape the handler (Express 4 then sends nothing for
this request). -/
inductive ProxyOutcome where
  | respond (status : Nat) (body : String) (contentType : Option String)
  | exceptionEscaped
deriving DecidableEq

/-- The error value that reaches the catch block of the /proxy handler in
src/server/server.js:113-119. -/
inductive ProxyError where
  | rateLimitRes
  | fetchError
  | uriError
deriving DecidableEq

/-- The property read `RateLimiterRedis.RateLimiterRes` on line 114 of
src/server/server.js.  rate-limiter-flexible exports RateLimiterRes as a
top-level member of the package, not as a property of the RateLimiterRedis
class, so the read yields undefined; `none` models that undefined. -/
def rateLimiterResOnRedisClass : Option Unit := none

/-- The catch block of src/server/server.js:113-119, line by line: it
first evaluates `error instanceof RateLimiterRedis.RateLimiterRes`.  When
the right-hand side is undefined, instanceof itself throws a TypeError, so
neither the 429 branch nor the 500 branch is reached for any error and the
exception escapes the async handler. -/
def proxyCatch (e : ProxyError) : ProxyOutcome :=
  match rateLimiterResOnRedisClass with
  | none => .exceptionEscaped
  | some _ =>
    match e with
    | .rateLimitRes => .respond 429 "Too many requests" none
    | _ => .respond 500 "Internal server error" none

/-- One /proxy request's effect, after rate limiting and URL validation
have passed (spec section 4.3): outcome, cache afterwards, number of
upstream fetches performed and number of cache writes performed. -/
structure ProxyResult where
  outcome : ProxyOutcome
  cache : CacheStore
  fetches : Nat
  writes : Nat
deriving DecidableEq

/-- The cache-aside core of the /proxy handler,
src/server/server.js:82-112: on a Redis hit, send the stored body with
its stored Content-Type and neither fetch nor write; on a miss, fetch
once; on response.ok store the body and Content-Type under the decoded
URL with PX CACHE_TTL and send them; on a failed fetch throw into the
catch block. -/
def proxyCore (cache : CacheStore) (now : Nat) (url : String)
    (fr : FetchResult) : ProxyResult :=
  match redisGet cache now url with
  | some e => { outcome := .respond 200 e.data (some e.contentType),
                cache := cache, fetches := 0, writes := 0 }
  | none =>
    match fr with
    | .ok body ct =>
      { outcome := .respond 200 body (some ct),
        cache := redisSet cache url { data := body, contentType := ct, storedAt := now },
        fetches := 1, writes := 1 }
    | _ =>
      { outcome := proxyCatch .fetchError, cache := cache, fetches := 1, writes := 0 }

/-- The whole /proxy handler of src/server/server.js:67-120.  `allowed`
is whether rateLimiter.consume resolved (a rejection throws into the
catch).  A missing or empty url query answers 400; the url is
percent-decoded once, a URIError from decoding throws into the catch; a
decoded URL failing isValidWhiteHouseUrl answers 400 before any upstream
call; otherwise the cache-aside core runs. -/
def proxyHandler (allowed : Bool) (cache : CacheStore) (now : Nat)
    (targetUrl : Option String) (fr : FetchResult) : ProxyResult :=
  if allowed then
    match targetUrl with
    | none =>
      { outcome := .respond 400 "Missing URL parameter" none,
        cache := cache, fetches := 0, writes := 0 }
    | some tu =>
      if tu = "" then
        { outcome := .respond 400 "Missing URL parameter" none,
          cache := cache, fetches := 0, writes := 0 }
      else
        match decodeURIComponent tu with
        | none =>
          { outcome := proxyCatch .uriError, cache := cache, fetches := 0, writes := 0 }
        | some decodedUrl =>
          if isValidWhiteHouseUrl decodedUrl then
            proxyCore cache now decodedUrl fr
          else
            { outcome := .respond 400 "Invalid URL" none,
              cache := cache, fetches := 0, writes := 0 }
  else
    { outcome := proxyCatch .rateLimitRes, cache := cache, fetches := 0, writes := 0 }

/-! ## The rate limiter

Modelled from the spec: the counter itself lives in the external
rate-limiter-flexible package (configured in src/server/server.js:32-38
and src/unnamed/part_002:50-57 with points N, duration D seconds, block
duration B seconds).  Spec section 4.1: each client identifier maps to a
counter allowing up to N requests per window of D seconds; on exceeding N
the identifier is refused for B seconds, independent of the window reset,
and admitted again once the block has elapsed. -/

structure RLState where
  windowStart : Nat
  count : Nat
  blockedUntil : Nat
deriving DecidableEq

/-- Modelled from the spec: first consume for a key (or a consume after
the window expired) opens a fresh window at the current time with one
point consumed; it is admitted while the limit N allows any point at
all. -/
def consumeFresh (N B t : Nat) : Bool × RLState :=
  if 0 < N then (true, { windowStart := t, count := 1, blockedUntil := 0 })
  else (false, { windowStart := t, count := 1, blockedUntil := t + B })

/-- Modelled from the spec: rateLimiter.consume for one client key at time
t (seconds).  A blocked key is refused until blockedUntil regardless of
the window; an expired window is replaced by a fresh one; within the
window the request is admitted while the consumed points stay at most N,
and the request that exceeds N is refused and blocks the key for B
seconds. -/
def consume (N D B : Nat) (s : Option RLState) (t : Nat) : Bool × RLState :=
  match s with
  | none => consumeFresh N B t
  | some st =>
    if t < st.blockedUntil then (false, st)
    else if st.windowStart + D ≤ t then consumeFresh N B t
    else if st.count < N then
      (true, { windowStart := st.windowStart, count := st.count + 1,
               blockedUntil := st.blockedUntil })
    else
      (false, { windowStart := st.windowStart, count := st.count + 1,
                blockedUntil := t + B })

/-- A sequence of consume calls for one key, returning the admission
verdicts in order and the final state. -/
def runAll (N D B : Nat) : Option RLState → List Nat → List Bool × Option RLState
  | s, [] => ([], s)
  | s, t :: ts =>
    match consume N D B s t with
    | (b, st) =>
      match runAll N D B (some st) ts with
      | (bs, sF) => (b :: bs, sF)

/-- Outcome of the dedicated rate-limit middleware on the /proxy route in
src/unnamed/part_002:62-74: pass to the main handler, or answer with a
status and the JSON error body fields. -/
inductive MwOutcome where
  | next
  | respond (status : Nat) (errorField messageField : String)
deriving DecidableEq

/-- The rate-limit middleware of src/unnamed/part_002:62-74: consume for
the client key; on resolution call next(), on rejection answer 429 with
the JSON body fields error "Too many requests" and message "Please try
again later". -/
def rateLimitMiddleware (N D B : Nat) (s : Option RLState) (t : Nat) :
    MwOutcome × RLState :=
  match consume N D B s t with
  | (true, st) => (.next, st)
  | (false, st) => (.respond 429 "Too many requests" "Please try again later", st)

/-! ## Concrete documents and oracles used by the counterexamples -/

/-- A feed whose only item has all four field children but whose
matching category sits one level deeper than a direct child. -/
def cdocNestedCategory : XmlNode :=
  el "rss" [el "channel" [el "item"
    [el "wrap" [el "category" [txt "Presidential Actions"]],
     el "title" [txt "T"], el "link" [txt "L"],
     el "pubDate" [txt "P"], el "description" [txt "D"]]]]

/-- A feed whose only item is kept (category child with the exact text)
and whose link text carries raw markup. -/
def cdocRawLink : XmlNode :=
  el "rss" [el "channel" [el "item"
    [el "category" [txt "Presidential Actions"],
     el "title" [txt "T"], el "link" [txt "<x>"],
     el "pubDate" [txt "P"], el "description" [txt "D"]]]]

/-- A feed whose only item has a category child with the exact text while
its four field elements are nested inside a wrapper rather than being
children. -/
def cdocNestedFields : XmlNode :=
  el "rss" [el "channel" [el "item"
    [el "category" [txt "Presidential Actions"],
     el "wrap" [el "title" [txt "T"], el "link" [txt "L"],
                el "pubDate" [txt "P"], el "description" [txt "D"]]]]]

/-- A feed whose only item is kept but has no title, link, pubDate or
description at all, so the field access throws: extraction fails. -/
def cdocMissingFields : XmlNode :=
  el "rss" [el "channel" [el "item"
    [el "category" [txt "Presidential Actions"]]]]

/-- A network oracle whose first two attempts fail and whose third
attempt returns a body. -/
def oracleTwoFailures : Nat → AttemptOutcome :=
  fun n => if n < 2 then .networkFailure else .ok "B"

/-- A parser that turns any body into the feed whose kept item misses its
fields, so extraction fails after a successful fetch. -/
def parseToMissingFields : String → XmlNode :=
  fun _ => cdocMissingFields

/-! ## Helper lemmas on the extraction pipeline -/

theorem itemFields_eq_specItemAction (item : XmlNode) :
    itemFields item = specItemAction item := by
  unfold itemFields specItemAction
  cases ht : collectByTag "title" item <;>
    cases hl : collectByTag "link" item <;>
      cases hp : collectByTag "pubDate" item <;>
        cases hd : collectByTag "description" item <;>
          simp [ht, hl, hp, hd]

theorem extractFields_filter (keep : XmlNode → Bool) (l : List XmlNode) :
    extractFields (l.filter keep) = specGo keep l := by
  induction l with
  | nil => rfl
  | cons x xs ih =>
    by_cases hx : keep x
    · simp only [List.filter_cons, hx, if_true, extractFields, specGo,
        itemFields_eq_specItemAction, ih]
    · simp only [List.filter_cons, hx, if_false, specGo, ih, Bool.false_eq_true]

theorem extractFields_isNone (l : List XmlNode) :
    (extractFields l).isNone = l.any fun it => (itemFields it).isNone := by
  induction l with
  | nil => rfl
  | cons x xs ih =>
    cases h1 : itemFields x <;> cases h2 : extractFields xs <;>
      simp_all [extractFields, h1, h2, List.any_cons]

theorem itemFields_isNone_eq (item : XmlNode) :
    (itemFields item).isNone = lacksFieldDesc item := by
  unfold itemFields lacksFieldDesc
  cases ht : collectByTag "title" item <;>
    cases hl : collectByTag "link" item <;>
      cases hp : collectByTag "pubDate" item <;>
        cases hd : collectByTag "description" item <;>
          simp [ht, hl, hp, hd]

theorem extractFields_mem (l : List XmlNode) (r : List ActionItem) (a : ActionItem)
    (hex : extractFields l = some r) (hmem : a ∈ r) :
    ∃ it, it ∈ l ∧ itemFields it = some a := by
  induction l generalizing r with
  | nil =>
    simp only [extractFields, Option.some.injEq] at hex
    subst hex
    exact absurd hmem (List.not_mem_nil a)
  | cons x xs ih =>
    rw [extractFields] at hex
    rcases h1 : itemFields x with _ | a1 <;> rw [h1] at hex
    · exact absurd hex (by simp)
    · rcases h2 : extractFields xs with _ | tail <;> rw [h2] at hex
      · exact absurd hex (by simp)
      · obtain rfl : a1 :: tail = r := by simpa using hex
        rcases List.mem_cons.mp hmem with rfl | htail
        · exact ⟨x, by simp, h1⟩
        · obtain ⟨it, hin, hf⟩ := ih tail h2 htail
          exact ⟨it, by simp [hin], hf⟩

theorem itemFields_shape (it : XmlNode) (a : ActionItem) (h : itemFields it = some a) :
    (∃ s, a.title = sanitizeHTML s) ∧ (∃ s, a.description = sanitizeHTML s) := by
  unfold itemFields at h
  split at h
  · obtain rfl : _ = a := Option.some.inj h
    exact ⟨⟨_, rfl⟩, ⟨_, rfl⟩⟩
  · exact absurd h (by simp)

def dataAppend (s t : String) : (s ++ t).data = s.data ++ t.data :=
  match s, t with
  | ⟨_⟩, ⟨_⟩ => rfl

theorem escapeChar_no_angle (c : Char) :
    '<' ∉ (escapeChar c).data ∧ '>' ∉ (escapeChar c).data := by
  unfold escapeChar
  split_ifs with h1 h2 h3 h4
  · decide
  · decide
  · decide
  · decide
  · constructor <;> intro hm
    · exact h2 (List.mem_singleton.mp hm).symm
    · exact h3 (List.mem_singleton.mp hm).symm

theorem concatMap_no_angle (l : List Char) :
    '<' ∉ (concatMapChars escapeChar l).data ∧ '>' ∉ (concatMapChars escapeChar l).data := by
  induction l with
  | nil => decide
  | cons c cs ih =>
    have hc := escapeChar_no_angle c
    refine ⟨?_, ?_⟩ <;> intro hm <;>
      rw [concatMapChars, dataAppend] at hm <;>
      rcases List.mem_append.mp hm with h | h
    · exact hc.1 h
    · exact ih.1 h
    · exact hc.2 h
    · exact ih.2 h

theorem sanitizeHTML_no_angle (s : String) :
    '<' ∉ (sanitizeHTML s).data ∧ '>' ∉ (sanitizeHTML s).data :=
  concatMap_no_angle s.data

/-! ## Claim C6: the extraction filter -/

/-- C6 (amended): extractActionsFromXML returns exactly those item
elements that have at least one category DESCENDANT whose text equals
exactly "Presidential Actions" (case-sensitive, exact match), in the
original document order with no re-sorting, using for each kept item the
first occurrence of each of title, link, pubDate and description; the
source reads categories with getElementsByTagName, which looks at
descendants, not only direct children. -/
theorem c6_extract_keeps_descendant_matches (doc : XmlNode) :
    extractActionsFromXML doc = specExtract specKeepDesc doc := by
  unfold extractActionsFromXML specExtract
  exact extractFields_filter specKeepDesc (collectByTag "item" doc)

/-- C6 (counterexample): in a document whose only item carries its
matching category one level deeper than a direct child, the code keeps
the item while the claim's "category child" criterion drops it, so
extraction as implemented differs from the claim as stated. -/
theorem c6_child_reading_refuted :
    extractActionsFromXML cdocNestedCategory
      = some [{ title := "T", link := "L", pubDate := "P", description := "D" }] ∧
    specExtract specKeepChild cdocNestedCategory = some [] ∧
    extractActionsFromXML cdocNestedCategory ≠ specExtract specKeepChild cdocNestedCategory := by
  decide

/-! ## Claim C10: partiality on malformed kept items -/

/-- C10 (amended): extraction fails (the field read throws) exactly when
some kept item lacks a title, link, pubDate or description DESCENDANT;
it succeeds exactly when every kept item has at least one of each of the
four as a descendant.  The source reads each field with
getElementsByTagName(tag)[0], which searches descendants, so a field
that is nested deeper than a direct child still satisfies it. -/
theorem c10_extraction_fails_iff_kept_item_lacks_field (doc : XmlNode) :
    (extractActionsFromXML doc).isNone
      = ((collectByTag "item" doc).filter specKeepDesc).any lacksFieldDesc := by
  unfold extractActionsFromXML
  rw [extractFields_isNone]
  have h : (fun it => (itemFields it).isNone) = lacksFieldDesc :=
    funext itemFields_isNone_eq
  rw [h]
  rfl

/-- C10 (counterexample): a kept item whose four fields are nested inside
a wrapper has no title, link, pubDate or description CHILD, so the claim
as stated predicts an exception; the code finds the fields as descendants
and succeeds, producing a fully populated item. -/
theorem c10_child_reading_refuted :
    claimMalformedKept cdocNestedFields = true ∧
    extractActionsFromXML cdocNestedFields
      = some [{ title := "T", link := "L", pubDate := "P", description := "D" }] := by
  decide

/-! ## Claim C7: HTML escaping of the produced fields -/

/-- C7 (amended): for every ActionItem produced by extraction, the title
and the description are HTML-escaped (each is sanitizeHTML of the raw
feed text, and in particular contains no raw angle bracket); the link and
the pubDate are NOT escaped — createActionCard interpolates the link into
the card's markup exactly as the feed supplied it. -/
theorem c7_title_description_escaped (doc : XmlNode) (r : List ActionItem)
    (a : ActionItem) (hex : extractActionsFromXML doc = some r) (hmem : a ∈ r) :
    (∃ s, a.title = sanitizeHTML s) ∧ (∃ s, a.description = sanitizeHTML s) ∧
    '<' ∉ a.title.data ∧ '>' ∉ a.title.data ∧
    '<' ∉ a.description.data ∧ '>' ∉ a.description.data := by
  unfold extractActionsFromXML at hex
  obtain ⟨it, _, hit⟩ := extractFields_mem _ _ _ hex hmem
  obtain ⟨⟨s1, hs1⟩, s2, hs2⟩ := itemFields_shape it a hit
  refine ⟨⟨s1, hs1⟩, ⟨s2, hs2⟩, ?_, ?_, ?_, ?_⟩
  · rw [hs1]; exact (sanitizeHTML_no_angle s1).1
  · rw [hs1]; exact (sanitizeHTML_no_angle s1).2
  · rw [hs2]; exact (sanitizeHTML_no_angle s2).1
  · rw [hs2]; exact (sanitizeHTML_no_angle s2).2

/-- C7 (witness): the amended claim applied to the concrete feed whose
kept item has link text with raw markup. -/
theorem c7_escaping_witness :
    (∃ s, (ActionItem.mk "T" "<x>" "P" "D").title = sanitizeHTML s) ∧
    (∃ s, (ActionItem.mk "T" "<x>" "P" "D").description = sanitizeHTML s) ∧
    '<' ∉ (ActionItem.mk "T" "<x>" "P" "D").title.data ∧
    '>' ∉ (ActionItem.mk "T" "<x>" "P" "D").title.data ∧
    '<' ∉ (ActionItem.mk "T" "<x>" "P" "D").description.data ∧
    '>' ∉ (ActionItem.mk "T" "<x>" "P" "D").description.data :=
  c7_title_description_escaped cdocRawLink
    [ActionItem.mk "T" "<x>" "P" "D"] (ActionItem.mk "T" "<x>" "P" "D")
    (by decide) (by decide)

set_option maxRecDepth 8192 in
/-- C7 (counterexample): the link field is not HTML-escaped: the produced
item keeps the raw link text with its angle brackets, and createActionCard
places that raw text into the rendered markup, refuting "all of its text
fields are HTML-escaped before display". -/
theorem c7_raw_link_refuted :
    extractActionsFromXML cdocRawLink
      = some [{ title := "T", link := "<x>", pubDate := "P", description := "D" }] ∧
    sanitizeHTML "<x>" = "&lt;x&gt;" ∧
    ("<x>" : String) ≠ sanitizeHTML "<x>" ∧
    createActionCard (fun s => s) { title := "T", link := "<x>", pubDate := "P", description := "D" }
      = "\n    <p class=\"action-date\">P</p>\n    <h2 class=\"action-title\">T</h2>\n    <div class=\"action-summary\">D</div>\n    <a href=\"<x>\" class=\"full-document-link\" target=\"_blank\" rel=\"noopener noreferrer\">\n      Read Full Document\n    </a>\n  " := by
  decide

/-! ## Helper lemmas on fetchWithRetry -/

theorem fetchWithRetry_succeeds (oracle : Nat → AttemptOutcome) (body : String) :
    ∀ (m rc attempt gas : Nat),
      (∀ k, k < m → attemptFails (oracle (attempt + k)) = true) →
      oracle (attempt + m) = .ok body → m ≤ gas →
      fetchWithRetry oracle rc attempt gas = (some body, m + 1, 2000 * m, rc + m) := by
  intro m
  induction m with
  | zero =>
    intro rc attempt gas _ hok _
    have h0 : oracle attempt = .ok body := by simpa using hok
    cases gas <;> rw [fetchWithRetry, h0] <;> simp
  | succ m ih =>
    intro rc attempt gas hf hok hle
    have h0 : attemptFails (oracle attempt) = true := by
      have := hf 0 (by omega)
      simpa using this
    obtain ⟨g, rfl⟩ : ∃ g, gas = g + 1 := ⟨gas - 1, by omega⟩
    have hfs : ∀ k, k < m → attemptFails (oracle (attempt + 1 + k)) = true := by
      intro k hk
      have := hf (k + 1) (by omega)
      have harith : attempt + (k + 1) = attempt + 1 + k := by omega
      rwa [harith] at this
    have hoks : oracle (attempt + 1 + m) = .ok body := by
      have harith : attempt + (m + 1) = attempt + 1 + m := by omega
      rwa [harith] at hok
    have ih2 := ih (rc + 1) (attempt + 1) g hfs hoks (by omega)
    cases ho : oracle attempt with
    | ok b => rw [ho] at h0; simp [attemptFails] at h0
    | httpError s =>
      rw [fetchWithRetry]
      simp only [ho, ih2, Prod.mk.injEq, true_and]
      all_goals omega
    | networkFailure =>
      rw [fetchWithRetry]
      simp only [ho, ih2, Prod.mk.injEq, true_and]
      all_goals omega

theorem fetchWithRetry_exhausts (oracle : Nat → AttemptOutcome) :
    ∀ (gas rc attempt : Nat),
      (∀ k, k ≤ gas → attemptFails (oracle (attempt + k)) = true) →
      fetchWithRetry oracle rc attempt gas = (none, gas + 1, 2000 * gas, rc + gas) := by
  intro gas
  induction gas with
  | zero =>
    intro rc attempt hf
    have h0 : attemptFails (oracle attempt) = true := by
      have := hf 0 (by omega)
      simpa using this
    cases ho : oracle attempt with
    | ok b => rw [ho] at h0; simp [attemptFails] at h0
    | httpError s => rw [fetchWithRetry, ho]; simp
    | networkFailure => rw [fetchWithRetry, ho]; simp
  | succ g ih =>
    intro rc attempt hf
    have h0 : attemptFails (oracle attempt) = true := by
      have := hf 0 (by omega)
      simpa using this
    have hfs : ∀ k, k ≤ g → attemptFails (oracle (attempt + 1 + k)) = true := by
      intro k hk
      have := hf (k + 1) (by omega)
      have harith : attempt + (k + 1) = attempt + 1 + k := by omega
      rwa [harith] at this
    have ih2 := ih (rc + 1) (attempt + 1) hfs
    cases ho : oracle attempt with
    | ok b => rw [ho] at h0; simp [attemptFails] at h0
    | httpError s =>
      rw [fetchWithRetry]
      simp only [ho, ih2, Prod.mk.injEq, true_and]
      all_goals omega
    | networkFailure =>
      rw [fetchWithRetry]
      simp only [ho, ih2, Prod.mk.injEq, true_and]
      all_goals omega

/-! ## Claim C8: retry, error surfacing and cache overwrite -/

/-- C8 (amended): starting a load cycle with the retry counter at 0, the
client retries the fetch up to MAX_RETRIES = 3 times, one fixed 2000 ms
delay before each retry, on any failure (non-2xx or network exception).
If all four attempts (the initial one plus 3 retries — never a 4th retry)
fail, the cycle surfaces the user-visible error alert with its Retry
button and leaves the local cache untouched.  If an attempt at index
j ≤ 3 succeeds AND the body extracts successfully, the cycle resets the
retry counter to 0 and overwrites the local cache wholesale with the new
data and timestamp.  (The reset and the overwrite need extraction to
succeed as well as the fetch: see the counterexample.) -/
theorem c8_retry_cycle (oracle : Nat → AttemptOutcome) (parseDoc : String → XmlNode)
    (now : Nat) (s : ClientState) (hs : s.retryCount = 0) :
    ((∀ k, k ≤ 3 → attemptFails (oracle k) = true) →
      fetchWithRetry oracle 0 0 3 = (none, 4, 6000, 3) ∧
      fetchPresidentialActions oracle parseDoc now s
        = { retryCount := 3, whActionsCache := s.whActionsCache, errorShown := true }) ∧
    (∀ j body data, j ≤ 3 →
      (∀ k, k < j → attemptFails (oracle k) = true) →
      oracle j = .ok body →
      extractActionsFromXML (parseDoc body) = some data →
      fetchWithRetry oracle 0 0 3 = (some body, j + 1, 2000 * j, j) ∧
      fetchPresidentialActions oracle parseDoc now s
        = { retryCount := 0, whActionsCache := some (data, now), errorShown := s.errorShown }) := by
  constructor
  · intro hfail
    have hrun : fetchWithRetry oracle 0 0 3 = (none, 4, 6000, 3) := by
      have := fetchWithRetry_exhausts oracle 3 0 0 (by intro k hk; simpa using hfail k hk)
      simpa using this
    refine ⟨hrun, ?_⟩
    unfold fetchPresidentialActions
    rw [hs]
    have hgas : MAX_RETRIES - 0 = 3 := rfl
    rw [hgas, hrun]
  · intro j body data hj hfailsBefore hok hextract
    have hrun : fetchWithRetry oracle 0 0 3 = (some body, j + 1, 2000 * j, j) := by
      have := fetchWithRetry_succeeds oracle body j 0 0 3
        (by intro k hk; simpa using hfailsBefore k hk) (by simpa using hok) hj
      simpa using this
    refine ⟨hrun, ?_⟩
    unfold fetchPresidentialActions
    rw [hs]
    have hgas : MAX_RETRIES - 0 = 3 := rfl
    rw [hgas, hrun]
    simp only [hextract]

/-- C8 (witness): the amended claim applied to an oracle that always
fails, from a fresh client state: four attempts, 6000 ms of delay, final
counter 3, error alert shown, cache untouched. -/
theorem c8_exhaust_witness :
    fetchWithRetry (fun _ => .networkFailure) 0 0 3 = (none, 4, 6000, 3) ∧
    fetchPresidentialActions (fun _ => .networkFailure) parseToMissingFields 0
        { retryCount := 0, whActionsCache := none, errorShown := false }
      = { retryCount := 3, whActionsCache := none, errorShown := true } :=
  (c8_retry_cycle (fun _ => .networkFailure) parseToMissingFields 0
    { retryCount := 0, whActionsCache := none, errorShown := false } rfl).1
    (by intro k _; rfl)

/-- C8 (counterexample): two failures then a successful fetch whose body
does not extract: the fetch succeeded, yet the retry counter is left at 2
(not reset to 0) and the local cache keeps its old value and timestamp
(not overwritten), refuting the claim that a successful fetch alone
resets the counter and overwrites the cache. -/
theorem c8_success_without_reset_refuted :
    fetchWithRetry oracleTwoFailures 0 0 3 = (some "B", 3, 4000, 2) ∧
    fetchPresidentialActions oracleTwoFailures parseToMissingFields 99
        { retryCount := 0, whActionsCache := some ([], 5), errorShown := false }
      = { retryCount := 2, whActionsCache := some ([], 5), errorShown := true } := by
  decide

/-! ## Claim C1: URL allow-listing -/

theorem isValid_eq_specAllowedCI (u : String) :
    isValidWhiteHouseUrl u = specAllowedCI u := by
  simp only [isValidWhiteHouseUrl, specAllowedCI, allowListPaths, List.any_cons,
    List.any_nil, Bool.or_false, Bool.or_assoc]
  rfl

/-- C1 (amended): the validation regex carries the i flag, so the
allow-list is matched ASCII-case-insensitively.  For every request URL
whose single percent-decoding succeeds and whose decoded form does not
start, case-insensitively, with https://www.whitehouse.gov/ followed by
feed, briefing-room or wp-json, isValidWhiteHouseUrl returns false and
the /proxy handler answers HTTP 400 with no upstream call and no cache
write; percent-encoding cannot change that verdict, because the
validation runs on the decoded form. -/
theorem c1_disallowed_url_rejected (cache : CacheStore) (now : Nat)
    (tu decoded : String) (fr : FetchResult)
    (hdec : decodeURIComponent tu = some decoded)
    (hspec : specAllowedCI decoded = false) :
    isValidWhiteHouseUrl decoded = false ∧
    ∃ msg, proxyHandler true cache now (some tu) fr
      = { outcome := .respond 400 msg none, cache := cache, fetches := 0, writes := 0 } := by
  have hv : isValidWhiteHouseUrl decoded = false := by
    rw [isValid_eq_specAllowedCI]
    exact hspec
  refine ⟨hv, ?_⟩
  by_cases htu : tu = ""
  · exact ⟨"Missing URL parameter", by simp [proxyHandler, htu]⟩
  · exact ⟨"Invalid URL", by simp [proxyHandler, htu, hdec, hv]⟩

/-- C1 (witness): the amended claim applied to a URL on a different
host. -/
theorem c1_rejection_witness :
    isValidWhiteHouseUrl "https://evil.example.com/feed" = false ∧
    ∃ msg, proxyHandler true [] 0 (some "https://evil.example.com/feed") .networkFailure
      = { outcome := .respond 400 msg none, cache := [], fetches := 0, writes := 0 } :=
  c1_disallowed_url_rejected [] 0 "https://evil.example.com/feed"
    "https://evil.example.com/feed" .networkFailure (by decide) (by decide)

set_option maxRecDepth 8192 in
/-- C1 (counterexample): the URL https://www.whitehouse.gov/FEED decodes
to itself and its path starts with none of the fixed prefixes feed,
briefing-room, wp-json as the claim states them, yet the i-flagged regex
accepts it and the handler performs the upstream call, refuting the claim
as stated. -/
theorem c1_case_insensitive_refuted :
    decodeURIComponent "https://www.whitehouse.gov/FEED"
      = some "https://www.whitehouse.gov/FEED" ∧
    specAllowedCS "https://www.whitehouse.gov/FEED" = false ∧
    isValidWhiteHouseUrl "https://www.whitehouse.gov/FEED" = true ∧
    (proxyHandler true [] 0 (some "https://www.whitehouse.gov/FEED") (.ok "body" "text/xml")).fetches = 1 ∧
    (proxyHandler true [] 0 (some "https://www.whitehouse.gov/FEED") (.ok "body" "text/xml")).outcome
      = .respond 200 "body" (some "text/xml") := by
  decide

/-! ## Claim C2: cache idempotence within the TTL -/

/-- C2: for any URL with no cache entry yet, a first successful proxy
call returns the fetched body and Content-Type and stores them; a second
call before the TTL has elapsed since the first call returns a
byte-identical body and Content-Type straight from the cache, with zero
upstream fetches and zero cache writes, whatever the upstream would do
now. -/
theorem c2_cache_hit_idempotent (c0 : CacheStore) (t1 t2 : Nat)
    (u body ct : String) (fr2 : FetchResult)
    (hmiss : lookupStore c0 u = none) (hfresh : t2 < t1 + CACHE_TTL) :
    (proxyCore c0 t1 u (.ok body ct)).outcome = .respond 200 body (some ct) ∧
    proxyCore (proxyCore c0 t1 u (.ok body ct)).cache t2 u fr2
      = { outcome := .respond 200 body (some ct),
          cache := (proxyCore c0 t1 u (.ok body ct)).cache,
          fetches := 0, writes := 0 } := by
  have hg1 : redisGet c0 t1 u = none := by
    unfold redisGet
    rw [hmiss]
  have hr1 : proxyCore c0 t1 u (.ok body ct)
      = { outcome := .respond 200 body (some ct),
          cache := redisSet c0 u { data := body, contentType := ct, storedAt := t1 },
          fetches := 1, writes := 1 } := by
    unfold proxyCore
    rw [hg1]
  have hg2 : redisGet (redisSet c0 u { data := body, contentType := ct, storedAt := t1 }) t2 u
      = some { data := body, contentType := ct, storedAt := t1 } := by
    unfold redisGet redisSet lookupStore
    simp [List.lookup, hfresh]
  constructor
  · rw [hr1]
  · rw [hr1]
    unfold proxyCore
    rw [hg2]

/-- C2 (witness): the two-call scenario at concrete times on an empty
cache. -/
theorem c2_hit_witness :
    (proxyCore [] 0 "https://www.whitehouse.gov/feed/" (.ok "b" "text/xml")).outcome
      = .respond 200 "b" (some "text/xml") ∧
    proxyCore (proxyCore [] 0 "https://www.whitehouse.gov/feed/" (.ok "b" "text/xml")).cache
        1 "https://www.whitehouse.gov/feed/" .networkFailure
      = { outcome := .respond 200 "b" (some "text/xml"),
          cache := (proxyCore [] 0 "https://www.whitehouse.gov/feed/" (.ok "b" "text/xml")).cache,
          fetches := 0, writes := 0 } :=
  c2_cache_hit_idempotent [] 0 1 "https://www.whitehouse.gov/feed/" "b" "text/xml"
    .networkFailure (by decide) (by decide)

/-! ## Claim C3: the TTL invariant and refresh on expiry -/

/-- C3: the proxy serves a response without an upstream fetch only from a
cache entry that is strictly younger than its TTL (a stale entry is
treated as absent), and a call at or after stored-at plus TTL performs
exactly one upstream fetch whose successful result overwrites the entry
with a fresh stored-at equal to the call time. -/
theorem c3_ttl_invariant :
    (∀ (cache : CacheStore) (t : Nat) (u : String) (fr : FetchResult),
      (proxyCore cache t u fr).fetches = 0 →
      ∃ e, lookupStore cache u = some e ∧ t < e.storedAt + CACHE_TTL ∧
        (proxyCore cache t u fr).outcome = .respond 200 e.data (some e.contentType)) ∧
    (∀ (cache : CacheStore) (t : Nat) (u : String) (e : CacheEntry) (body ct : String),
      lookupStore cache u = some e → e.storedAt + CACHE_TTL ≤ t →
      (proxyCore cache t u (.ok body ct)).fetches = 1 ∧
      (proxyCore cache t u (.ok body ct)).writes = 1 ∧
      lookupStore (proxyCore cache t u (.ok body ct)).cache u
        = some { data := body, contentType := ct, storedAt := t }) := by
  constructor
  · intro cache t u fr hzero
    rcases hl : lookupStore cache u with _ | e
    · exfalso
      have hg : redisGet cache t u = none := by unfold redisGet; rw [hl]
      unfold proxyCore at hzero
      rw [hg] at hzero
      cases fr <;> simp at hzero
    · by_cases hfr : t < e.storedAt + CACHE_TTL
      · have hg : redisGet cache t u = some e := by
          unfold redisGet
          rw [hl]
          simp [hfr]
        refine ⟨e, rfl, hfr, ?_⟩
        unfold proxyCore
        rw [hg]
      · exfalso
        have hg : redisGet cache t u = none := by
          unfold redisGet
          rw [hl]
          simp [hfr]
        unfold proxyCore at hzero
        rw [hg] at hzero
        cases fr <;> simp at hzero
  · intro cache t u e body ct hl hstale
    have hg : redisGet cache t u = none := by
      unfold redisGet
      rw [hl]
      simp [Nat.not_lt.mpr hstale]
    have hr : proxyCore cache t u (.ok body ct)
        = { outcome := .respond 200 body (some ct),
            cache := redisSet cache u { data := body, contentType := ct, storedAt := t },
            fetches := 1, writes := 1 } := by
      unfold proxyCore
      rw [hg]
    rw [hr]
    refine ⟨rfl, rfl, ?_⟩
    unfold redisSet lookupStore
    simp [List.lookup]

/-- C3 (witness): a stale entry (stored at 0, read at exactly the TTL) is
refreshed by exactly one fetch and overwritten with the new stored-at. -/
theorem c3_expiry_witness :
    (proxyCore [("u", { data := "old", contentType := "text/xml", storedAt := 0 })]
        300000 "u" (.ok "new" "text/xml")).fetches = 1 ∧
    (proxyCore [("u", { data := "old", contentType := "text/xml", storedAt := 0 })]
        300000 "u" (.ok "new" "text/xml")).writes = 1 ∧
    lookupStore (proxyCore [("u", { data := "old", contentType := "text/xml", storedAt := 0 })]
        300000 "u" (.ok "new" "text/xml")).cache "u"
      = some { data := "new", contentType := "text/xml", storedAt := 300000 } :=
  c3_ttl_invariant.2 [("u", { data := "old", contentType := "text/xml", storedAt := 0 })]
    300000 "u" { data := "old", contentType := "text/xml", storedAt := 0 }
    "new" "text/xml" (by decide) (by decide)

/-! ## Claim C9: upstream failure handling -/

/-- C9: upstream failure on an allowed, uncached URL.  The claim is right
that the error path writes no cache entry, but the handler never sends
the intended HTTP 500: the catch block's guard reads
RateLimiterRedis.RateLimiterRes, which rate-limiter-flexible does not
define on the class, and instanceof with an undefined right-hand side
throws a TypeError, so the exception escapes and no response at all is
sent for this request. -/
theorem c9_upstream_failure_no_write :
    proxyHandler true [] 7 (some "https://www.whitehouse.gov/feed/") (.httpError 404)
      = { outcome := .exceptionEscaped, cache := [], fetches := 1, writes := 0 } ∧
    proxyHandler true [] 7 (some "https://www.whitehouse.gov/feed/") .networkFailure
      = { outcome := .exceptionEscaped, cache := [], fetches := 1, writes := 0 } := by
  decide

/-! ## Claim C4: admission control -/

theorem runAll_window (N D B t0 : Nat) :
    ∀ (ts : List Nat) (k : Nat), (∀ t, t ∈ ts → t < t0 + D) → k + ts.length ≤ N →
      runAll N D B (some { windowStart := t0, count := k, blockedUntil := 0 }) ts
        = (List.replicate ts.length true,
           some { windowStart := t0, count := k + ts.length, blockedUntil := 0 }) := by
  intro ts
  induction ts with
  | nil => intro k _ _; simp [runAll]
  | cons t ts ih =>
    intro k hin hle
    have h1 : ¬ t < 0 := by omega
    have h2 : ¬ (t0 + D ≤ t) := by
      have := hin t (by simp)
      omega
    have h3 : k < N := by
      simp only [List.length_cons] at hle
      omega
    rw [runAll, consume]
    simp only [h1, if_false, h2, h3, if_true]
    rw [ih (k + 1) (fun x hx => hin x (by simp [hx])) (by simp at hle ⊢; omega)]
    have harith : k + 1 + ts.length = k + (ts.length + 1) := by omega
    rw [harith]
    simp [List.replicate_succ]

theorem runAll_blocked (N D B : Nat) (st : RLState) :
    ∀ (us : List Nat), (∀ u, u ∈ us → u < st.blockedUntil) →
      runAll N D B (some st) us = (List.replicate us.length false, some st) := by
  intro us
  induction us with
  | nil => intro _; simp [runAll]
  | cons u us ih =>
    intro hin
    have h1 : u < st.blockedUntil := hin u (by simp)
    rw [runAll, consume]
    simp only [h1, if_true]
    rw [ih (fun x hx => hin x (by simp [hx]))]
    simp [List.replicate_succ]

/-- C4 (spec-modelled): from a fresh counter, a client's first N requests
inside one window of D seconds are all admitted; the (N+1)-th request
inside the same window is rejected and blocks the key until t + B; every
further request before the block expires is rejected, even past the
window reset; and a request at or after the block's end is admitted
again.  B at least D (the defaults are B = 300, D = 60) guarantees the
window has also expired when the block ends. -/
theorem c4_rate_limit_lifecycle (N D B t0 tR v : Nat) (rest us : List Nat)
    (hN : 0 < N) (hDB : D ≤ B)
    (hlen : rest.length + 1 = N)
    (hrest : ∀ t, t ∈ rest → t < t0 + D)
    (hR1 : t0 ≤ tR) (hR2 : tR < t0 + D)
    (hus : ∀ u, u ∈ us → u < tR + B)
    (hv : tR + B ≤ v) :
    runAll N D B none (t0 :: rest)
      = (List.replicate N true, some { windowStart := t0, count := N, blockedUntil := 0 }) ∧
    consume N D B (some { windowStart := t0, count := N, blockedUntil := 0 }) tR
      = (false, { windowStart := t0, count := N + 1, blockedUntil := tR + B }) ∧
    runAll N D B (some { windowStart := t0, count := N + 1, blockedUntil := tR + B }) us
      = (List.replicate us.length false,
         some { windowStart := t0, count := N + 1, blockedUntil := tR + B }) ∧
    (consume N D B (some { windowStart := t0, count := N + 1, blockedUntil := tR + B }) v).1
      = true := by
  refine ⟨?_, ?_, ?_, ?_⟩
  · rw [runAll, consume, consumeFresh]
    simp only [hN, if_true]
    rw [runAll_window N D B t0 rest 1 hrest (by omega)]
    rw [← hlen]
    have harith : 1 + rest.length = rest.length + 1 := by omega
    rw [harith]
    simp [List.replicate_succ]
  · rw [consume]
    have h1 : ¬ tR < 0 := by omega
    have h2 : ¬ (t0 + D ≤ tR) := by omega
    have h3 : ¬ (N < N) := by omega
    simp [h1, h2, h3]
  · exact runAll_blocked N D B _ us hus
  · rw [consume]
    have h1 : ¬ v < tR + B := by omega
    have h2 : t0 + D ≤ v := by omega
    simp only [h1, if_false, h2, if_true]
    rw [consumeFresh]
    simp [hN]

/-- C4 (witness): with N = 2, D = 60, B = 300, requests at 0 and 1 are
admitted, the third request at 2 is rejected and blocks until 302,
requests at 3 and at 100 (after the window reset) stay rejected, and a
request at 302 is admitted again. -/
theorem c4_lifecycle_witness :
    runAll 2 60 300 none [0, 1]
      = (List.replicate 2 true, some { windowStart := 0, count := 2, blockedUntil := 0 }) ∧
    consume 2 60 300 (some { windowStart := 0, count := 2, blockedUntil := 0 }) 2
      = (false, { windowStart := 0, count := 3, blockedUntil := 302 }) ∧
    runAll 2 60 300 (some { windowStart := 0, count := 3, blockedUntil := 302 }) [3, 100]
      = (List.replicate 2 false, some { windowStart := 0, count := 3, blockedUntil := 302 }) ∧
    (consume 2 60 300 (some { windowStart := 0, count := 3, blockedUntil := 302 }) 302).1
      = true :=
  c4_rate_limit_lifecycle 2 60 300 0 2 302 [1] [3, 100]
    (by decide) (by decide) (by decide) (by decide) (by decide) (by decide)
    (by decide) (by decide)

/-! ## Claim C5: the 429 rejection -/

/-- C5: the rate-limit middleware on the /proxy route answers status 429
with JSON error field "Too many requests" (and message "Please try again
later") exactly when rateLimiter.consume rejects the client, and passes
the request on to the main handler otherwise, so no other status ever
comes out of a rate-limit rejection. -/
theorem c5_reject_is_429 (N D B : Nat) (s : Option RLState) (t : Nat) :
    ((rateLimitMiddleware N D B s t).1
        = .respond 429 "Too many requests" "Please try again later")
      ↔ (consume N D B s t).1 = false := by
  unfold rateLimitMiddleware
  rcases hc : consume N D B s t with ⟨b, st⟩
  cases b <;> simp
